import Mathlib

/-!
Shallow embedding of the contact-angle estimation engine found in
`backend/app/main.py`. Floating-point scalars are modelled as exact
rationals where the source only performs field operations and
comparisons (`pyRound`, `gridGet`, `bilinear_sample`, `centralDiff`,
`argmaxAbs`, `subpixel_from_gradient`), and as real numbers where the
source calls `math.sqrt`, `math.cos`, `math.sin` or `math.atan`
(`solve_ellipse_line_intersection`, `analytic_tangent_slope_at_point`,
`ransac_line_fit`, the angle computation and the contact-candidate
selection of `analyze`). The value `float(inf)` that the source returns
for vertical slopes is modelled by the tagged type `RVal`. The hidden
random stream of `random.sample` in `ransac_line_fit` is made explicit
as a list of index pairs, and the external `cv2.fitLine` fallback is an
uninterpreted function parameter.
-/

open scoped Classical

/-- Rounding of Python 3 (`round`, half to even) on an exact rational. -/
def pyRound (q : ℚ) : ℤ :=
  if q - ⌊q⌋ < 1/2 then ⌊q⌋
  else if 1/2 < q - ⌊q⌋ then ⌊q⌋ + 1
  else if ⌊q⌋ % 2 = 0 then ⌊q⌋ else ⌊q⌋ + 1

/-- Bounds-checked access `img_gray[r, c]` into the grayscale grid; `none`
models an out-of-bounds index (an IndexError in the source). -/
def gridGet (img : List (List ℚ)) (r c : ℤ) : Option ℚ :=
  if 0 ≤ r ∧ 0 ≤ c then (img[r.toNat]?).bind fun row => row[c.toNat]? else none

/-- `bilinear_sample` from `backend/app/main.py`: out-of-range coordinates
are clamped and the nearest pixel is read directly; otherwise the four
neighbouring pixels are blended bilinearly. -/
def bilinear_sample (img : List (List ℚ)) (x y : ℚ) : Option ℚ :=
  if x < 0 ∨ ((img.headD []).length : ℚ) - 1 ≤ x ∨ y < 0 ∨ ((img.length : ℚ)) - 1 ≤ y then
    gridGet img (pyRound (min (max y 0) ((img.length : ℚ) - 1)))
      (pyRound (min (max x 0) (((img.headD []).length : ℚ) - 1)))
  else
    let x0 := ⌊x⌋
    let y0 := ⌊y⌋
    let dx := x - x0
    let dy := y - y0
    (gridGet img y0 x0).bind fun v00 =>
    (gridGet img y0 (x0 + 1)).bind fun v10 =>
    (gridGet img (y0 + 1) x0).bind fun v01 =>
    (gridGet img (y0 + 1) (x0 + 1)).bind fun v11 =>
      some ((v00 * (1 - dx) + v10 * dx) * (1 - dy) + (v01 * (1 - dx) + v11 * dx) * dy)

/-- The derivative array `g` of `subpixel_from_gradient`: zero at both
endpoints, central finite difference in the interior
(`g[1:-1] = (intens[2:] - intens[:-2]) / 2`). -/
def centralDiff (intens : List ℚ) : List ℚ :=
  (List.range intens.length).map fun i =>
    if i = 0 ∨ i = intens.length - 1 then 0
    else (intens.getD (i + 1) 0 - intens.getD (i - 1) 0) / 2

/-- Helper for `argmaxAbs`: fold keeping the first index of the maximum. -/
def argmaxAbsAux : List ℚ → ℕ → ℕ → ℚ → ℕ
  | [], _, bi, _ => bi
  | v :: rest, i, bi, bv =>
    if bv < |v| then argmaxAbsAux rest (i + 1) i |v|
    else argmaxAbsAux rest (i + 1) bi bv

/-- `int(np.argmax(np.abs(g)))`: first index of the maximum absolute value. -/
def argmaxAbs : List ℚ → ℕ
  | [] => 0
  | v :: rest => argmaxAbsAux rest 1 0 |v|

/-- `subpixel_from_gradient` from `backend/app/main.py`. -/
def subpixel_from_gradient (ts intens : List ℚ) : ℚ :=
  let g := centralDiff intens
  if g.length < 3 then ts.getD 0 0
  else
    let imax := argmaxAbs g
    if imax ≤ 0 ∨ g.length - 1 ≤ imax then ts.getD imax 0
    else
      let y1 := g.getD (imax - 1) 0
      let y2 := g.getD imax 0
      let y3 := g.getD (imax + 1) 0
      let denom := 2 * (y1 - 2 * y2 + y3)
      if |denom| < (1/100000000 : ℚ) then ts.getD imax 0
      else
        let dt := max (-1) (min 1 ((y1 - y3) / denom))
        let spacing := if 1 < ts.length then ts.getD 1 0 - ts.getD 0 0 else 1
        ts.getD imax 0 + dt * spacing

/-- A Python float that the engine produces: either an ordinary real
number or positive infinity (`float(inf)`). -/
inductive RVal where
  | real : ℝ → RVal
  | posInf : RVal

/-- `np.allclose(p1, p2)` on two 2-d points with the numpy defaults
`rtol = 1e-5`, `atol = 1e-8`. -/
noncomputable def npAllclose (p q : ℝ × ℝ) : Prop :=
  |p.1 - q.1| ≤ 1/100000000 + (1/100000) * |q.1| ∧
  |p.2 - q.2| ≤ 1/100000000 + (1/100000) * |q.2|

/-- Inlier count of a candidate line `(a, b, c)` with normalizer `denom`:
`((np.abs(a*x + b*y + c) / denom) < thresh).sum()`. -/
noncomputable def countInliers (points : List (ℝ × ℝ)) (a b c denom thresh : ℝ) : ℕ :=
  (points.filter fun p => decide (|a * p.1 + b * p.2 + c| / denom < thresh)).length

/-- One iteration of the consensus loop of `ransac_line_fit`, acting on the
state `(best, best_inliers)` for the sampled index pair `idx`. -/
noncomputable def ransacStep (points : List (ℝ × ℝ)) (thresh : ℝ)
    (st : Option (ℝ × ℝ × ℝ) × ℤ) (idx : ℕ × ℕ) : Option (ℝ × ℝ × ℝ) × ℤ :=
  let p1 := points.getD idx.1 (0, 0)
  let p2 := points.getD idx.2 (0, 0)
  if npAllclose p1 p2 then st
  else
    let a := p2.2 - p1.2
    let b := -(p2.1 - p1.1)
    let c := -(a * p1.1 + b * p1.2)
    let denom := Real.sqrt (a * a + b * b)
    if denom = 0 then st
    else
      let inliers : ℤ := countInliers points a b c denom thresh
      if st.2 < inliers then (some (a / denom, b / denom, c / denom), inliers)
      else st

/-- The tail of `ransac_line_fit` after the consensus loop: the `cv2.fitLine`
fallback when no candidate was formed, or the slope/intercept conversion of
the best normalized candidate. -/
noncomputable def finalizeRansac (fitLine : List (ℝ × ℝ) → ℝ × ℝ × ℝ × ℝ)
    (points : List (ℝ × ℝ)) : Option (ℝ × ℝ × ℝ) → RVal × ℝ
  | none =>
    let r := fitLine points
    if |r.1| < 1/1000000000 then (RVal.posInf, r.2.2.1)
    else (RVal.real (r.2.1 / r.1), r.2.2.2 - r.2.1 / r.1 * r.2.2.1)
  | some t =>
    if 1/1000000 < |t.2.1| then (RVal.real (-t.1 / t.2.1), -t.2.2 / t.2.1)
    else (RVal.posInf, if t.1 ≠ 0 then -t.2.2 / t.1 else 0)

/-- `ransac_line_fit` from `backend/app/main.py`, with the random stream of
`random.sample` made explicit as the index-pair list `samples` and the
external `cv2.fitLine` call abstracted as the parameter `fitLine`
(returning `(vx, vy, x0, y0)`). -/
noncomputable def ransac_line_fit (fitLine : List (ℝ × ℝ) → ℝ × ℝ × ℝ × ℝ)
    (points : List (ℝ × ℝ)) (samples : List (ℕ × ℕ)) (thresh : ℝ) : RVal × ℝ :=
  if points.length < 2 then (RVal.real 0, 0)
  else finalizeRansac fitLine points (samples.foldl (ransacStep points thresh) (none, -1)).1

/-- Quadratic coefficient `A` of `solve_ellipse_line_intersection`. -/
noncomputable def interA (a b phi m : ℝ) : ℝ :=
  ((Real.cos phi + Real.sin phi * m) ^ 2) / (a * a) +
    ((-Real.sin phi + Real.cos phi * m) ^ 2) / (b * b)

/-- Linear coefficient `B` of `solve_ellipse_line_intersection`. -/
noncomputable def interB (h k a b phi m cc : ℝ) : ℝ :=
  (2 * (Real.cos phi + Real.sin phi * m) * (Real.cos phi * (-h) + Real.sin phi * (cc - k))) / (a * a) +
    2 * ((-Real.sin phi + Real.cos phi * m) * (-Real.sin phi * (-h) + Real.cos phi * (cc - k))) / (b * b)

/-- Constant coefficient `C` of `solve_ellipse_line_intersection`. -/
noncomputable def interC (h k a b phi cc : ℝ) : ℝ :=
  ((Real.cos phi * (-h) + Real.sin phi * (cc - k)) ^ 2) / (a * a) +
    ((-Real.sin phi * (-h) + Real.cos phi * (cc - k)) ^ 2) / (b * b) - 1

/-- `solve_ellipse_line_intersection` from `backend/app/main.py`: ellipse
centered at `(h, k)` with axes `a`, `b` and rotation `phi`, line
`y = m x + cc`. -/
noncomputable def solve_ellipse_line_intersection (h k a b phi m cc : ℝ) : List (ℝ × ℝ) :=
  let A := interA a b phi m
  let B := interB h k a b phi m cc
  let C := interC h k a b phi cc
  if |A| < (1/1000000000000 : ℝ) then
    if |B| < (1/1000000000000 : ℝ) then []
    else
      let x := -C / B
      [(x, m * x + cc)]
  else
    let disc := B * B - 4 * A * C
    if disc < 0 then []
    else
      let x1 := (-B + Real.sqrt disc) / (2 * A)
      let x2 := (-B - Real.sqrt disc) / (2 * A)
      [(x1, m * x1 + cc), (x2, m * x2 + cc)]

/-- The image-frame gradient `(dFdx, dFdy)` computed by
`analytic_tangent_slope_at_point`. -/
noncomputable def tangentGrad (x0 y0 h k a b phi : ℝ) : ℝ × ℝ :=
  let dx := x0 - h
  let dy := y0 - k
  let c := Real.cos phi
  let s := Real.sin phi
  let xr := dx * c + dy * s
  let yr := -dx * s + dy * c
  let dFdxr := 2 * xr / (a * a)
  let dFdyr := 2 * yr / (b * b)
  (dFdxr * c - dFdyr * s, dFdxr * s + dFdyr * c)

/-- `analytic_tangent_slope_at_point` from `backend/app/main.py`. -/
noncomputable def analytic_tangent_slope_at_point (x0 y0 h k a b phi : ℝ) : RVal :=
  if |(tangentGrad x0 y0 h k a b phi).2| < (1/1000000000000 : ℝ) then RVal.posInf
  else RVal.real (-(tangentGrad x0 y0 h k a b phi).1 / (tangentGrad x0 y0 h k a b phi).2)

/-- The per-side angle computation of `analyze` (lines 267-273 of
`backend/app/main.py`) on finite slopes: absolute difference of the two
arctangents, folded at pi, converted to degrees. -/
noncomputable def sideAngleDeg (mt mb : ℝ) : ℝ :=
  let ang := |Real.arctan mt - Real.arctan mb|
  let folded := if Real.pi < ang then 2 * Real.pi - ang else ang
  folded * 180 / Real.pi

/-- Distance key used by the nearest-boundary-point fallback of `analyze`:
`np.abs(m*x - y + c) / (math.hypot(m, -1) + 1e-12)`. -/
noncomputable def distKey (m c : ℝ) (p : ℝ × ℝ) : ℝ :=
  |m * p.1 - p.2 + c| / (Real.sqrt (m * m + 1) + 1/1000000000000)

/-- Stable insertion into a list sorted by the key `f`. -/
noncomputable def insertByKey (f : ℝ × ℝ → ℝ) (p : ℝ × ℝ) : List (ℝ × ℝ) → List (ℝ × ℝ)
  | [] => [p]
  | q :: rest => if f p ≤ f q then p :: q :: rest else q :: insertByKey f p rest

/-- Stable sort by the key `f`; models the stable sorts of the source
(`sorted(..., key=...)` and `np.argsort` followed by indexing). -/
noncomputable def sortByKey (f : ℝ × ℝ → ℝ) : List (ℝ × ℝ) → List (ℝ × ℝ)
  | [] => []
  | p :: rest => insertByKey f p (sortByKey f rest)

/-- First point attaining the minimal x-coordinate (`np.argmin` semantics). -/
noncomputable def firstMinByX : List (ℝ × ℝ) → Option (ℝ × ℝ)
  | [] => none
  | p :: rest =>
    match firstMinByX rest with
    | none => some p
    | some q => if q.1 < p.1 then some q else some p

/-- First point attaining the maximal x-coordinate (`np.argmax` semantics). -/
noncomputable def firstMaxByX : List (ℝ × ℝ) → Option (ℝ × ℝ)
  | [] => none
  | p :: rest =>
    match firstMaxByX rest with
    | none => some p
    | some q => if p.1 < q.1 then some q else some p

/-- The bounds filter of `analyze`: keep intersection points with
`0 <= x < w_img` and `0 <= y < h_img`. -/
noncomputable def boundsFilter (inters : List (ℝ × ℝ)) (w h : ℝ) : List (ℝ × ℝ) :=
  inters.filter fun p => decide (0 ≤ p.1 ∧ p.1 < w ∧ 0 ≤ p.2 ∧ p.2 < h)

/-- The `close_pts` computation of `analyze`: the (up to) 200 boundary
points nearest to the baseline, by stable sort on the distance key. -/
noncomputable def closePts (pts : List (ℝ × ℝ)) (m c : ℝ) : List (ℝ × ℝ) :=
  (sortByKey (distKey m c) pts).take (min pts.length 200)

/-- The nearest-boundary-point fallback of `analyze`: when fewer than two
candidates survive the bounds filter and at least two close boundary points
exist, replace the candidates by the leftmost and rightmost close points. -/
noncomputable def applyFallback (cands closeL : List (ℝ × ℝ)) : List (ℝ × ℝ) :=
  if cands.length < 2 then
    if 2 ≤ closeL.length then
      match firstMinByX closeL, firstMaxByX closeL with
      | some l, some r => [l, r]
      | _, _ => cands
    else cands
  else cands

/-- The single-candidate repair of `analyze`
(`candidates.append((candidates[0][0] + 1.0, candidates[0][1]))`). -/
noncomputable def fabricateSecond : List (ℝ × ℝ) → List (ℝ × ℝ)
  | [p] => [p, (p.1 + 1, p.2)]
  | l => l

/-- The contact-candidate selection pipeline of `analyze` (lines 218-237):
bounds filter, nearest-boundary fallback, single-candidate repair, and the
final sort by x-coordinate. -/
noncomputable def selectContacts (inters pts : List (ℝ × ℝ)) (w h m c : ℝ) : List (ℝ × ℝ) :=
  sortByKey Prod.fst (fabricateSecond (applyFallback (boundsFilter inters w h) (closePts pts m c)))

theorem centralDiff_length (intens : List ℚ) : (centralDiff intens).length = intens.length := by
  simp [centralDiff]

/-- C1 counterexample: at the concrete one-point input, `ransac_line_fit`
returns the default line `(slope 0, intercept 0)`; no error is surfaced,
refuting the claim that fewer than 2 points fail with `InsufficientData`. -/
theorem c1_counterexample :
    ransac_line_fit (fun _ => (0, 0, 0, 0)) [((3 : ℝ), 4)] [] (7/2) = (RVal.real 0, 0) := by
  simp only [ransac_line_fit]
  rw [if_pos (by simp)]

/-- C1 (amended): for every input of fewer than 2 points, `ransac_line_fit`
returns the default line `(slope 0, intercept 0)` without consulting the
random samples or the fallback fitter; no error is raised. -/
theorem c1_small_input_default (fitLine : List (ℝ × ℝ) → ℝ × ℝ × ℝ × ℝ)
    (points : List (ℝ × ℝ)) (samples : List (ℕ × ℕ)) (thresh : ℝ)
    (hn : points.length < 2) :
    ransac_line_fit fitLine points samples thresh = (RVal.real 0, 0) := by
  simp only [ransac_line_fit]
  rw [if_pos hn]

/-- C1 witness: the amended theorem evaluated at a concrete single point. -/
theorem c1_witness :
    ransac_line_fit (fun _ => (1, 1, 0, 0)) [((0 : ℝ), 0)] [] (7/2) = (RVal.real 0, 0) :=
  c1_small_input_default _ _ _ _ (by simp)

/-- C2 counterexample: for the profile `[0, 0, 10, 10, 10]` the maximum
absolute derivative sits at index 1, the first eligible interior sample,
yet `subpixel_from_gradient` still refines (parabola through the zero
endpoint derivative) and returns `3/2` instead of the unrefined `ts[1] = 1`. -/
theorem c2_counterexample :
    argmaxAbs (centralDiff [0, 0, 10, 10, 10]) = 1 ∧
    ([(0 : ℚ), 1, 2, 3, 4].getD 1 0 = 1) ∧
    subpixel_from_gradient [0, 1, 2, 3, 4] [0, 0, 10, 10, 10] = 3/2 := by
  have hgv : centralDiff [0, 0, 10, 10, 10] = [0, 5, 5, 0, 0] := by
    norm_num [centralDiff, List.range_succ, List.getD]
  have ha : argmaxAbs [(0 : ℚ), 5, 5, 0, 0] = 1 := by
    norm_num [argmaxAbs, argmaxAbsAux, abs_of_nonneg]
  refine ⟨by rw [hgv, ha], by norm_num [List.getD], ?_⟩
  simp only [subpixel_from_gradient, hgv, ha]
  norm_num [List.getD, abs_of_nonpos]

/-- C2 (amended): the profile endpoints are assigned zero derivative and do
take part in the peak search; whenever the argmax index is `0` or the last
index of the derivative array, `subpixel_from_gradient` returns that
offset with no parabola refinement. (At the first or last eligible interior
sample, refinement still proceeds.) -/
theorem c2_endpoint_no_refine (ts intens : List ℚ) (hlen : 3 ≤ intens.length)
    (hend : argmaxAbs (centralDiff intens) = 0 ∨
      argmaxAbs (centralDiff intens) = intens.length - 1) :
    subpixel_from_gradient ts intens = ts.getD (argmaxAbs (centralDiff intens)) 0 := by
  have hglen := centralDiff_length intens
  simp only [subpixel_from_gradient]
  rw [if_neg (by omega), if_pos (by omega)]

/-- C2 witness: on a constant profile all derivatives are zero, the argmax
index is the endpoint 0, and the unrefined offset `ts[0]` is returned. -/
theorem c2_witness : subpixel_from_gradient [0, 1, 2] [5, 5, 5] = 0 := by
  have ha : argmaxAbs (centralDiff [5, 5, 5]) = 0 := by
    norm_num [centralDiff, List.range_succ, List.getD, argmaxAbs, argmaxAbsAux]
  have h := c2_endpoint_no_refine [0, 1, 2] [5, 5, 5] (by norm_num) (Or.inl ha)
  rw [h, ha]
  norm_num [List.getD]

/-- C8: in the interior-argmax case of `subpixel_from_gradient`, a parabola
denominator of absolute value below `1e-8` skips refinement and returns the
integer-sample offset, and otherwise the vertex offset is clamped to
`[-1, 1]` sample spacings before being applied. -/
theorem c8_parabola_clamp (ts intens g : List ℚ) (i : ℕ) (y1 y2 y3 denom : ℚ)
    (hg : g = centralDiff intens) (hi : i = argmaxAbs g)
    (hlen : 3 ≤ intens.length) (hi0 : 0 < i) (hitop : i < intens.length - 1)
    (hy1 : y1 = g.getD (i - 1) 0) (hy2 : y2 = g.getD i 0) (hy3 : y3 = g.getD (i + 1) 0)
    (hden : denom = 2 * (y1 - 2 * y2 + y3)) :
    (|denom| < 1/100000000 → subpixel_from_gradient ts intens = ts.getD i 0) ∧
    (1/100000000 ≤ |denom| →
      subpixel_from_gradient ts intens =
        ts.getD i 0 + max (-1) (min 1 ((y1 - y3) / denom)) *
          (if 1 < ts.length then ts.getD 1 0 - ts.getD 0 0 else 1) ∧
      -1 ≤ max (-1) (min 1 ((y1 - y3) / denom)) ∧
      max (-1) (min 1 ((y1 - y3) / denom)) ≤ 1) := by
  subst hg hi hy1 hy2 hy3 hden
  have hglen := centralDiff_length intens
  constructor
  · intro hsmall
    simp only [subpixel_from_gradient]
    rw [if_neg (by omega), if_neg (by omega), if_pos hsmall]
  · intro hbig
    refine ⟨?_, le_max_left _ _, max_le (by norm_num) (min_le_left _ _)⟩
    simp only [subpixel_from_gradient]
    rw [if_neg (by omega), if_neg (by omega), if_neg (not_lt.mpr hbig)]

/-- C8 witness: a profile whose interior argmax has a nearly flat parabola
(denominator `2e-9`), so refinement is skipped and `ts[2] = 2` is returned. -/
theorem c8_witness :
    subpixel_from_gradient [0, 1, 2, 3, 4]
      [0, 0, 2 - 2/1000000000, 2, 4 - 2/1000000000] = 2 := by
  have hgv : centralDiff [0, 0, 2 - 2/1000000000, 2, 4 - 2/1000000000] =
      [0, 1 - 1/1000000000, 1, 1, 0] := by
    norm_num [centralDiff, List.range_succ, List.getD]
  have ha : argmaxAbs (centralDiff [0, 0, 2 - 2/1000000000, 2, 4 - 2/1000000000]) = 2 := by
    rw [hgv]; norm_num [argmaxAbs, argmaxAbsAux, abs_of_nonneg]
  have hy1 : ((1 : ℚ) - 1/1000000000) =
      (centralDiff [0, 0, 2 - 2/1000000000, 2, 4 - 2/1000000000]).getD (2 - 1) 0 := by
    rw [hgv]; norm_num [List.getD]
  have hy2 : (1 : ℚ) =
      (centralDiff [0, 0, 2 - 2/1000000000, 2, 4 - 2/1000000000]).getD 2 0 := by
    rw [hgv]; norm_num [List.getD]
  have hy3 : (1 : ℚ) =
      (centralDiff [0, 0, 2 - 2/1000000000, 2, 4 - 2/1000000000]).getD (2 + 1) 0 := by
    rw [hgv]; norm_num [List.getD]
  have h := c8_parabola_clamp [0, 1, 2, 3, 4]
    [0, 0, 2 - 2/1000000000, 2, 4 - 2/1000000000]
    (centralDiff [0, 0, 2 - 2/1000000000, 2, 4 - 2/1000000000]) 2
    (1 - 1/1000000000) 1 1 (2 * ((1 - 1/1000000000) - 2 * 1 + 1))
    rfl ha.symm (by norm_num) (by norm_num) (by norm_num) hy1 hy2 hy3 rfl
  rw [h.1 (by rw [show (2 * ((1 - 1/1000000000) - 2 * 1 + 1) : ℚ) = -(2/1000000000) by ring,
    abs_neg, abs_of_nonneg (by norm_num)]; norm_num)]
  norm_num [List.getD]

theorem pyRound_bounds (q : ℚ) (n : ℤ) (h0 : 0 ≤ q) (hn : q ≤ (n : ℚ)) :
    0 ≤ pyRound q ∧ pyRound q ≤ n := by
  have hf0 : 0 ≤ ⌊q⌋ := Int.floor_nonneg.mpr h0
  have hfn : ⌊q⌋ ≤ n := by
    have h1 : (⌊q⌋ : ℚ) ≤ (n : ℚ) := le_trans (Int.floor_le q) hn
    exact_mod_cast h1
  have hstep : ¬ q - ⌊q⌋ < 1/2 → ⌊q⌋ + 1 ≤ n := by
    intro hge
    push_neg at hge
    have hlt : (⌊q⌋ : ℚ) < (n : ℚ) := by linarith
    have h2 : ⌊q⌋ < n := by exact_mod_cast hlt
    omega
  unfold pyRound
  split_ifs with h1 h2 h3
  · exact ⟨hf0, hfn⟩
  · exact ⟨by omega, hstep h1⟩
  · exact ⟨hf0, hfn⟩
  · exact ⟨by omega, hstep h1⟩

theorem gridGet_total (img : List (List ℚ)) (w : ℕ)
    (hw : ∀ row ∈ img, row.length = w) (r c : ℤ)
    (hr0 : 0 ≤ r) (hr : r < (img.length : ℤ)) (hc0 : 0 ≤ c) (hc : c < (w : ℤ)) :
    ∃ v, gridGet img r c = some v := by
  have hrn : r.toNat < img.length := by omega
  have hrow : img[r.toNat]? = some (img.get ⟨r.toNat, hrn⟩) :=
    List.getElem?_eq_getElem hrn
  have hlen : (img.get ⟨r.toNat, hrn⟩).length = w := hw _ (List.get_mem img r.toNat hrn)
  have hcn : c.toNat < (img.get ⟨r.toNat, hrn⟩).length := by omega
  refine ⟨(img.get ⟨r.toNat, hrn⟩).get ⟨c.toNat, hcn⟩, ?_⟩
  simp only [gridGet, if_pos (And.intro hr0 hc0), hrow, Option.some_bind]
  exact List.getElem?_eq_getElem hcn

/-- C3: for a grid with at least one row and one column, `bilinear_sample`
always returns a value (no out-of-bounds access, hence no exception, and as
a total rational-valued function it cannot produce NaN), and whenever the
sampling coordinate is outside the interpolable region it is clamped to the
valid range and a single nearest pixel is read without interpolation. -/
theorem c3_bilinear_safety (img : List (List ℚ)) (x y : ℚ)
    (hh : 1 ≤ img.length) (hw1 : 1 ≤ (img.headD []).length)
    (hw : ∀ row ∈ img, row.length = (img.headD []).length) :
    (∃ v, bilinear_sample img x y = some v) ∧
    (x < 0 ∨ ((img.headD []).length : ℚ) - 1 ≤ x ∨ y < 0 ∨ ((img.length : ℚ)) - 1 ≤ y →
      bilinear_sample img x y =
        gridGet img (pyRound (min (max y 0) ((img.length : ℚ) - 1)))
          (pyRound (min (max x 0) (((img.headD []).length : ℚ) - 1)))) := by
  by_cases hc : x < 0 ∨ ((img.headD []).length : ℚ) - 1 ≤ x ∨ y < 0 ∨ ((img.length : ℚ)) - 1 ≤ y
  · have heq : bilinear_sample img x y =
        gridGet img (pyRound (min (max y 0) ((img.length : ℚ) - 1)))
          (pyRound (min (max x 0) (((img.headD []).length : ℚ) - 1))) := by
      simp only [bilinear_sample, if_pos hc]
    refine ⟨?_, fun _ => heq⟩
    rw [heq]
    have hwq : (1 : ℚ) ≤ ((img.headD []).length : ℚ) := by exact_mod_cast hw1
    have hhq : (1 : ℚ) ≤ ((img.length : ℚ)) := by exact_mod_cast hh
    have hx0 : 0 ≤ min (max x 0) (((img.headD []).length : ℚ) - 1) :=
      le_min (le_max_right x 0) (by linarith)
    have hx1 : min (max x 0) (((img.headD []).length : ℚ) - 1) ≤
        ((((img.headD []).length : ℤ) - 1 : ℤ) : ℚ) := by
      push_cast
      exact min_le_right _ _
    have hy0 : 0 ≤ min (max y 0) ((img.length : ℚ) - 1) :=
      le_min (le_max_right y 0) (by linarith)
    have hy1 : min (max y 0) ((img.length : ℚ) - 1) ≤ (((img.length : ℤ) - 1 : ℤ) : ℚ) := by
      push_cast
      exact min_le_right _ _
    have hpx := pyRound_bounds _ _ hx0 hx1
    have hpy := pyRound_bounds _ _ hy0 hy1
    exact gridGet_total img _ hw _ _ hpy.1 (by omega) hpx.1 (by omega)
  · refine ⟨?_, fun hcon => absurd hcon hc⟩
    have hc' := hc
    push_neg at hc
    obtain ⟨hx0, hx1, hy0, hy1⟩ := hc
    have hfx0 : 0 ≤ ⌊x⌋ := Int.floor_nonneg.mpr hx0
    have hfy0 : 0 ≤ ⌊y⌋ := Int.floor_nonneg.mpr hy0
    have hfx1 : ⌊x⌋ < ((img.headD []).length : ℤ) - 1 := by
      rw [show (((img.headD []).length : ℤ) - 1) = ((((img.headD []).length : ℤ) - 1 : ℤ)) from rfl,
        Int.floor_lt]
      push_cast
      exact hx1
    have hfy1 : ⌊y⌋ < (img.length : ℤ) - 1 := by
      rw [Int.floor_lt]
      push_cast
      exact hy1
    obtain ⟨v00, h00⟩ := gridGet_total img _ hw ⌊y⌋ ⌊x⌋ hfy0 (by omega) hfx0 (by omega)
    obtain ⟨v10, h10⟩ := gridGet_total img _ hw ⌊y⌋ (⌊x⌋ + 1) hfy0 (by omega) (by omega) (by omega)
    obtain ⟨v01, h01⟩ := gridGet_total img _ hw (⌊y⌋ + 1) ⌊x⌋ (by omega) (by omega) hfx0 (by omega)
    obtain ⟨v11, h11⟩ :=
      gridGet_total img _ hw (⌊y⌋ + 1) (⌊x⌋ + 1) (by omega) (by omega) (by omega) (by omega)
    have hEq : bilinear_sample img x y =
        some ((v00 * (1 - (x - (⌊x⌋ : ℚ))) + v10 * (x - (⌊x⌋ : ℚ))) * (1 - (y - (⌊y⌋ : ℚ))) +
          (v01 * (1 - (x - (⌊x⌋ : ℚ))) + v11 * (x - (⌊x⌋ : ℚ))) * (y - (⌊y⌋ : ℚ))) := by
      simp only [bilinear_sample, if_neg hc', h00, h10, h01, h11, Option.some_bind]
    exact ⟨_, hEq⟩

/-- C3 witness: the safety theorem evaluated on a 1-by-1 grid at a far
out-of-range coordinate. -/
theorem c3_witness : ∃ v, bilinear_sample [[(5 : ℚ)]] (-3) 7 = some v :=
  (c3_bilinear_safety [[(5 : ℚ)]] (-3) 7 (by simp) (by simp) (by simp)).1

/-- C4: for the ellipse centered at the origin with semi-axes 10 and 5 and
zero rotation, intersecting with the line `y = 0` yields exactly the set
of points `(-10, 0)` and `(10, 0)`, and intersecting with `y = 100` yields
the empty list. -/
theorem c4_intersection_axis_aligned :
    solve_ellipse_line_intersection 0 0 10 5 0 0 0 = [((10 : ℝ), 0), (-10, 0)] ∧
    (∀ p : ℝ × ℝ, p ∈ solve_ellipse_line_intersection 0 0 10 5 0 0 0 ↔
      p = (-10, 0) ∨ p = (10, 0)) ∧
    solve_ellipse_line_intersection 0 0 10 5 0 0 100 = [] := by
  have hA : interA 10 5 0 0 = 1/100 := by
    simp only [interA, Real.cos_zero, Real.sin_zero]
    norm_num
  have hB0 : interB 0 0 10 5 0 0 0 = 0 := by
    simp only [interB, Real.cos_zero, Real.sin_zero]
    norm_num
  have hC0 : interC 0 0 10 5 0 0 = -1 := by
    simp only [interC, Real.cos_zero, Real.sin_zero]
    norm_num
  have hB1 : interB 0 0 10 5 0 0 100 = 0 := by
    simp only [interB, Real.cos_zero, Real.sin_zero]
    norm_num
  have hC1 : interC 0 0 10 5 0 100 = 399 := by
    simp only [interC, Real.cos_zero, Real.sin_zero]
    norm_num
  have habs : ¬ |(1/100 : ℝ)| < 1/1000000000000 := by
    rw [abs_of_pos (by norm_num : (0 : ℝ) < 1/100)]
    norm_num
  have hmain : solve_ellipse_line_intersection 0 0 10 5 0 0 0 = [((10 : ℝ), 0), (-10, 0)] := by
    simp only [solve_ellipse_line_intersection, hA, hB0, hC0]
    rw [if_neg habs, if_neg (by norm_num)]
    rw [show (0 : ℝ) * 0 - 4 * (1/100) * (-1) = (1/5 : ℝ) ^ 2 by norm_num,
      Real.sqrt_sq (by norm_num : (0 : ℝ) ≤ 1/5)]
    norm_num
  refine ⟨hmain, fun p => ?_, ?_⟩
  · rw [hmain]
    simp only [List.mem_cons, List.not_mem_nil, or_false]
    tauto
  · simp only [solve_ellipse_line_intersection, hA, hB1, hC1]
    rw [if_neg habs, if_pos (by norm_num)]

/-- C5: when the quadratic coefficient `A` is below the `1e-12` tolerance,
the solver degrades to a linear solve returning a single point, unless `B`
is also below the tolerance, in which case it returns no intersections; and
when `A` is not negligible and the discriminant is negative it returns no
intersections. -/
theorem c5_degenerate_branches (h k a b phi m cc : ℝ) :
    (|interA a b phi m| < 1/1000000000000 →
      ((|interB h k a b phi m cc| < 1/1000000000000 →
        solve_ellipse_line_intersection h k a b phi m cc = []) ∧
       (¬ |interB h k a b phi m cc| < 1/1000000000000 →
        solve_ellipse_line_intersection h k a b phi m cc =
          [(-interC h k a b phi cc / interB h k a b phi m cc,
            m * (-interC h k a b phi cc / interB h k a b phi m cc) + cc)]))) ∧
    (¬ |interA a b phi m| < 1/1000000000000 →
      interB h k a b phi m cc * interB h k a b phi m cc -
        4 * interA a b phi m * interC h k a b phi cc < 0 →
      solve_ellipse_line_intersection h k a b phi m cc = []) := by
  refine ⟨fun hA => ⟨fun hB => ?_, fun hB => ?_⟩, fun hA hD => ?_⟩ <;>
    simp only [solve_ellipse_line_intersection]
  · rw [if_pos hA, if_pos hB]
  · rw [if_pos hA, if_neg hB]
  · rw [if_neg hA, if_pos hD]

/-- C5 witness: a huge ellipse makes `A` fall below the tolerance with `B`
also negligible, so zero intersections are reported. -/
theorem c5_witness : solve_ellipse_line_intersection 0 0 10000000 10000000 0 0 0 = [] := by
  have hA : |interA 10000000 10000000 0 0| < 1/1000000000000 := by
    rw [show interA 10000000 10000000 0 0 = 1/100000000000000 by
      simp only [interA, Real.cos_zero, Real.sin_zero]; norm_num]
    rw [abs_of_pos (by norm_num : (0 : ℝ) < 1/100000000000000)]
    norm_num
  have hB : |interB 0 0 10000000 10000000 0 0 0| < 1/1000000000000 := by
    rw [show interB 0 0 10000000 10000000 0 0 0 = 0 by
      simp only [interB, Real.cos_zero, Real.sin_zero]; norm_num]
    rw [abs_zero]
    norm_num
  exact ((c5_degenerate_branches 0 0 10000000 10000000 0 0 0).1 hA).1 hB

/-- C7: for the axis-aligned ellipse with semi-axes 10 and 5, the tangent
slope at `(10, 0)` is positive infinity and at `(0, 5)` it is `0`; and for
every point and ellipse whose image-frame gradient component `dFdy` is
within `1e-12` of zero, positive infinity is returned rather than failing. -/
theorem c7_tangent_slopes :
    analytic_tangent_slope_at_point 10 0 0 0 10 5 0 = RVal.posInf ∧
    analytic_tangent_slope_at_point 0 5 0 0 10 5 0 = RVal.real 0 ∧
    ∀ x0 y0 h k a b phi : ℝ,
      |(tangentGrad x0 y0 h k a b phi).2| < 1/1000000000000 →
      analytic_tangent_slope_at_point x0 y0 h k a b phi = RVal.posInf := by
  have hg1 : tangentGrad 10 0 0 0 10 5 0 = (1/5, 0) := by
    simp only [tangentGrad, Real.cos_zero, Real.sin_zero]
    norm_num
  have hg2 : tangentGrad 0 5 0 0 10 5 0 = (0, 2/5) := by
    simp only [tangentGrad, Real.cos_zero, Real.sin_zero]
    norm_num
  refine ⟨?_, ?_, fun x0 y0 h k a b phi hsmall => ?_⟩
  · simp only [analytic_tangent_slope_at_point, hg1]
    rw [if_pos (by norm_num)]
  · simp only [analytic_tangent_slope_at_point, hg2]
    rw [if_neg (by rw [abs_of_pos (by norm_num : (0 : ℝ) < 2/5)]; norm_num)]
    simp only [RVal.real.injEq]
    norm_num
  · simp only [analytic_tangent_slope_at_point]
    rw [if_pos hsmall]

/-- C7 witness: the general vertical-tangent branch applied at the center of
a unit circle, where the gradient vanishes entirely. -/
theorem c7_witness : analytic_tangent_slope_at_point 0 0 0 0 1 1 0 = RVal.posInf := by
  refine c7_tangent_slopes.2.2 0 0 0 0 1 1 0 ?_
  rw [show tangentGrad 0 0 0 0 1 1 0 = (0, 0) by
    simp only [tangentGrad, Real.cos_zero, Real.sin_zero]; norm_num]
  norm_num

/-- C9: the per-side contact angle is the absolute difference of the two
arctangents folded at pi and converted to degrees; for baseline slope 0 it
reports 45 degrees both for tangent slope 1 and for tangent slope -1, and
it always lies in the interval `[0, 180]`. -/
theorem c9_angle_folding :
    sideAngleDeg 1 0 = 45 ∧ sideAngleDeg (-1) 0 = 45 ∧
    ∀ mt mb : ℝ, 0 ≤ sideAngleDeg mt mb ∧ sideAngleDeg mt mb ≤ 180 := by
  have hb : ∀ mt mb : ℝ, |Real.arctan mt - Real.arctan mb| < Real.pi := by
    intro mt mb
    have h1 := Real.arctan_lt_pi_div_two mt
    have h2 := Real.neg_pi_div_two_lt_arctan mt
    have h3 := Real.arctan_lt_pi_div_two mb
    have h4 := Real.neg_pi_div_two_lt_arctan mb
    have h5 := Real.pi_pos
    rw [abs_lt]
    constructor <;> linarith
  refine ⟨?_, ?_, fun mt mb => ?_⟩
  · simp only [sideAngleDeg, Real.arctan_one, Real.arctan_zero, sub_zero]
    rw [abs_of_nonneg (by positivity), if_neg (by intro hcon; nlinarith [Real.pi_pos])]
    field_simp
    ring
  · simp only [sideAngleDeg, Real.arctan_neg, Real.arctan_one, Real.arctan_zero, sub_zero,
      abs_neg]
    rw [abs_of_nonneg (by positivity), if_neg (by intro hcon; nlinarith [Real.pi_pos])]
    field_simp
    ring
  · have hlt := hb mt mb
    simp only [sideAngleDeg]
    rw [if_neg (not_lt.mpr hlt.le)]
    constructor
    · positivity
    · rw [div_le_iff₀ Real.pi_pos]
      nlinarith [Real.pi_pos]

theorem normalized_sq (a b : ℝ) (hne : Real.sqrt (a * a + b * b) ≠ 0) :
    (a / Real.sqrt (a * a + b * b)) ^ 2 + (b / Real.sqrt (a * a + b * b)) ^ 2 = 1 := by
  have hnn : 0 ≤ a * a + b * b := add_nonneg (mul_self_nonneg a) (mul_self_nonneg b)
  have hs : Real.sqrt (a * a + b * b) ^ 2 = a * a + b * b := Real.sq_sqrt hnn
  have hz : a * a + b * b ≠ 0 := fun h0 => hne (by rw [h0, Real.sqrt_zero])
  field_simp
  ring

theorem ransacStep_norm (points : List (ℝ × ℝ)) (thresh : ℝ)
    (st : Option (ℝ × ℝ × ℝ) × ℤ) (idx : ℕ × ℕ)
    (hst : ∀ u : ℝ × ℝ × ℝ, st.1 = some u → u.1 ^ 2 + u.2.1 ^ 2 = 1) :
    ∀ u : ℝ × ℝ × ℝ, (ransacStep points thresh st idx).1 = some u →
      u.1 ^ 2 + u.2.1 ^ 2 = 1 := by
  intro u hu
  simp only [ransacStep] at hu
  split_ifs at hu with h1 h2 h3
  · exact hst u hu
  · exact hst u hu
  · simp only [Option.some.injEq] at hu
    subst hu
    exact normalized_sq _ _ h2
  · exact hst u hu

theorem ransacFoldl_norm (points : List (ℝ × ℝ)) (thresh : ℝ) (samples : List (ℕ × ℕ)) :
    ∀ st : Option (ℝ × ℝ × ℝ) × ℤ,
      (∀ u : ℝ × ℝ × ℝ, st.1 = some u → u.1 ^ 2 + u.2.1 ^ 2 = 1) →
      ∀ u : ℝ × ℝ × ℝ, (samples.foldl (ransacStep points thresh) st).1 = some u →
        u.1 ^ 2 + u.2.1 ^ 2 = 1 := by
  induction samples with
  | nil => intro st hst u hu; exact hst u hu
  | cons idx rest ih =>
    intro st hst u hu
    rw [List.foldl_cons] at hu
    exact ih _ (ransacStep_norm points thresh st idx hst) u hu

/-- C6: the best candidate produced by the consensus loop is normalized
(`a^2 + b^2 = 1`); when its `|b|` is at most `1e-6` the fit is reported as a
vertical line, slope positive infinity with intercept the x-coordinate
`-c/a` of that vertical line (with `a` provably nonzero), and otherwise it
is converted to slope/intercept form `(-a/b, -c/b)`. -/
theorem c6_slope_intercept_conversion (fitLine : List (ℝ × ℝ) → ℝ × ℝ × ℝ × ℝ)
    (points : List (ℝ × ℝ)) (samples : List (ℕ × ℕ)) (thresh an bn cn : ℝ)
    (hn : ¬ points.length < 2)
    (hbest : (samples.foldl (ransacStep points thresh) (none, -1)).1 = some (an, bn, cn)) :
    an ^ 2 + bn ^ 2 = 1 ∧
    (|bn| ≤ 1/1000000 →
      an ≠ 0 ∧
      ransac_line_fit fitLine points samples thresh = (RVal.posInf, -cn / an)) ∧
    (1/1000000 < |bn| →
      ransac_line_fit fitLine points samples thresh = (RVal.real (-an / bn), -cn / bn)) := by
  have hnorm : an ^ 2 + bn ^ 2 = 1 :=
    ransacFoldl_norm points thresh samples (none, -1)
      (fun u hu => by simp at hu) (an, bn, cn) hbest
  have hfit : ransac_line_fit fitLine points samples thresh =
      finalizeRansac fitLine points (some (an, bn, cn)) := by
    simp only [ransac_line_fit]
    rw [if_neg hn, hbest]
  refine ⟨hnorm, fun hble => ?_, fun hbgt => ?_⟩
  · have han : an ≠ 0 := by
      intro h0
      rw [h0] at hnorm
      have hb2 : bn ^ 2 = 1 := by nlinarith
      have habs2 : bn ^ 2 ≤ (1/1000000 : ℝ) ^ 2 := by
        nlinarith [sq_abs bn, abs_nonneg bn]
      nlinarith
    refine ⟨han, ?_⟩
    rw [hfit]
    simp only [finalizeRansac]
    rw [if_neg (not_lt.mpr hble), if_pos han]
  · rw [hfit]
    simp only [finalizeRansac]
    rw [if_pos hbgt]

/-- C6 witness: the conversion theorem applied to a concrete run whose
consensus loop selects the vertical line through `(0,0)` and `(0,1)`. -/
theorem c6_witness :
    ransac_line_fit (fun _ => (0, 0, 0, 0)) [((0 : ℝ), 0), (0, 1)] [(0, 1)] (7/2) =
      (RVal.posInf, 0) := by
  have hnc : ¬ npAllclose ((0 : ℝ), (0 : ℝ)) ((0 : ℝ), (1 : ℝ)) := by
    rintro ⟨-, h2⟩
    rw [show ((0 : ℝ), (0 : ℝ)).2 - ((0 : ℝ), (1 : ℝ)).2 = -1 by norm_num, abs_neg, abs_one] at h2
    norm_num [abs_one] at h2
  have hstep : ransacStep [((0 : ℝ), 0), (0, 1)] (7/2) (none, -1) (0, 1) =
      (some (1, 0, 0), 2) := by
    norm_num [ransacStep, List.getD, hnc, countInliers, List.filter_cons, List.filter_nil,
      decide_eq_true_eq, Real.sqrt_one, npAllclose]
  have hfold : (([((0 : ℕ), (1 : ℕ))]).foldl
      (ransacStep [((0 : ℝ), 0), (0, 1)] (7/2)) (none, -1)).1 = some (1, 0, 0) := by
    rw [List.foldl_cons, List.foldl_nil, hstep]
  have h := c6_slope_intercept_conversion (fun _ => (0, 0, 0, 0)) [((0 : ℝ), 0), (0, 1)]
    [(0, 1)] (7/2) 1 0 0 (by norm_num) hfold
  rw [(h.2.1 (by norm_num)).2]
  norm_num

/-- C10: when exactly one contact candidate survives the bounds filter and
the nearest-boundary fallback, the analysis fabricates a second candidate
one pixel to the right at the same height and reports the ordered pair, so a
left and a right contact always exist. -/
theorem c10_single_candidate_repair (inters pts : List (ℝ × ℝ)) (w h m c : ℝ) (p : ℝ × ℝ)
    (hone : applyFallback (boundsFilter inters w h) (closePts pts m c) = [p]) :
    selectContacts inters pts w h m c = [p, (p.1 + 1, p.2)] ∧ p.1 < p.1 + 1 := by
  refine ⟨?_, lt_add_one p.1⟩
  have hle : p.1 ≤ (p.1 + 1, p.2).1 := le_of_lt (lt_add_one p.1)
  simp [selectContacts, hone, fabricateSecond, sortByKey, insertByKey, hle]

/-- C10 witness: a single in-bounds intersection with no usable boundary
points yields the fabricated ordered pair. -/
theorem c10_witness :
    selectContacts [((1 : ℝ), 1)] [] 10 10 0 0 = [(1, 1), (2, 1)] := by
  have hbf : boundsFilter [((1 : ℝ), 1)] 10 10 = [(1, 1)] := by
    norm_num [boundsFilter, List.filter_cons, List.filter_nil, decide_eq_true_eq]
  have hcp : closePts ([] : List (ℝ × ℝ)) 0 0 = [] := by
    simp [closePts, sortByKey]
  have hone : applyFallback (boundsFilter [((1 : ℝ), 1)] 10 10) (closePts [] 0 0) = [(1, 1)] := by
    rw [hbf, hcp]
    norm_num [applyFallback]
  have h := c10_single_candidate_repair [((1 : ℝ), 1)] [] 10 10 0 0 (1, 1) hone
  rw [h.1]
  norm_num
